import Mathlib

/-!
Shallow embedding of the richinput library (src/richinput/richinput.py and
src/richinput/terminfo.py) in Lean 4, together with theorems settling the
spec claims about the editing buffer, the input decoder, the escape-sequence
consumer and the terminfo loader.

Python strings are modelled as lists of code points (List Char), Python
integers as Int, raised exceptions as Option/Except results, and the
environment and the filesystem as explicit function arguments.
-/

/-- Python slice-endpoint normalization: a negative endpoint counts from the
end of the sequence, and the result is clamped to the interval from 0 to the
length of the sequence. -/
def sliceIdx (len : Nat) (i : Int) : Nat :=
  (if i < 0 then (len : Int) + i else i).toNat.min len

/-- Python s[:i] on a sequence of code points. -/
def pyTake (s : List Char) (i : Int) : List Char := s.take (sliceIdx s.length i)

/-- Python s[i:] on a sequence of code points. -/
def pyDrop (s : List Char) (i : Int) : List Char := s.drop (sliceIdx s.length i)

/-- IndexedLine (richinput.py lines 235-272): an editing buffer holding a
text and an insertion index.  The constructor stores both arguments
unchanged, exactly as the source does. -/
structure IndexedLine where
  text : List Char
  idx : Int
deriving Repr, DecidableEq

/-- Source: move_cursor_backward sets idx to max(0, idx - steps) and reports
whether the index changed. -/
def IndexedLine.move_cursor_backward (l : IndexedLine) (steps : Int) :
    IndexedLine × Bool :=
  let idx := max 0 (l.idx - steps)
  (⟨l.text, idx⟩, l.idx != idx)

/-- Source: move_cursor_forward sets idx to min(len(text), idx + steps) and
reports whether the index changed. -/
def IndexedLine.move_cursor_forward (l : IndexedLine) (steps : Int) :
    IndexedLine × Bool :=
  let idx := min (l.text.length : Int) (l.idx + steps)
  (⟨l.text, idx⟩, l.idx != idx)

/-- Source: move_cursor_home sets idx to 0 and reports whether it changed. -/
def IndexedLine.move_cursor_home (l : IndexedLine) : IndexedLine × Bool :=
  (⟨l.text, 0⟩, l.idx != 0)

/-- Source: move_cursor_end sets idx to len(text) and reports whether it
changed. -/
def IndexedLine.move_cursor_end (l : IndexedLine) : IndexedLine × Bool :=
  (⟨l.text, (l.text.length : Int)⟩, l.idx != (l.text.length : Int))

/-- Source: insert splices the new text at the insertion index (by Python
slicing, which clamps out-of-range indices) and then moves the cursor
forward by the length of the inserted text. -/
def IndexedLine.insert (l : IndexedLine) (s : List Char) : IndexedLine :=
  let text := pyTake l.text l.idx ++ s ++ pyDrop l.text l.idx
  (IndexedLine.move_cursor_forward ⟨text, l.idx⟩ (s.length : Int)).1

/-- Source: delete_backward, when idx is greater than 0, removes the slice
between idx-1 and idx and moves the cursor backward one step. -/
def IndexedLine.delete_backward (l : IndexedLine) : IndexedLine :=
  if l.idx > 0 then
    let text := pyTake l.text (l.idx - 1) ++ pyDrop l.text l.idx
    (IndexedLine.move_cursor_backward ⟨text, l.idx⟩ 1).1
  else l

/-- Source: delete_forward, when idx is less than len(text), removes the
slice between idx and idx+1 and leaves the index unchanged. -/
def IndexedLine.delete_forward (l : IndexedLine) : IndexedLine :=
  if l.idx < (l.text.length : Int) then
    ⟨pyTake l.text l.idx ++ pyDrop l.text (l.idx + 1), l.idx⟩
  else l

/-- Buffer invariant stated by the spec: 0 ≤ insertion index ≤ length(text). -/
def IndexedLine.Inv (l : IndexedLine) : Prop :=
  0 ≤ l.idx ∧ l.idx ≤ (l.text.length : Int)

instance (l : IndexedLine) : Decidable l.Inv := by
  unfold IndexedLine.Inv; exact inferInstance

/-- Buffer operations as a syntax, so that arbitrary operation sequences can
be quantified over.  Step counts for the cursor moves are nonnegative, as in
every call site of the source. -/
inductive BufOp where
  | ins (s : List Char)
  | delBack
  | delFwd
  | moveBack (n : Nat)
  | moveFwd (n : Nat)
  | moveHome
  | moveEnd
deriving Repr, DecidableEq

/-- Apply one buffer operation to an IndexedLine. -/
def applyOp (l : IndexedLine) : BufOp → IndexedLine
  | .ins s => l.insert s
  | .delBack => l.delete_backward
  | .delFwd => l.delete_forward
  | .moveBack n => (l.move_cursor_backward (n : Int)).1
  | .moveFwd n => (l.move_cursor_forward (n : Int)).1
  | .moveHome => l.move_cursor_home.1
  | .moveEnd => l.move_cursor_end.1

/-- Apply a sequence of buffer operations, left to right. -/
def applyOps (l : IndexedLine) (ops : List BufOp) : IndexedLine :=
  ops.foldl applyOp l

/-- Empty buffer, the initial state of RichLine. -/
def emptyLine : IndexedLine := ⟨[], 0⟩

theorem sliceIdx_of_inRange (len : Nat) (i : Int) (h0 : 0 ≤ i)
    (h1 : i ≤ (len : Int)) : sliceIdx len i = i.toNat := by
  unfold sliceIdx
  rw [if_neg (by omega)]
  exact Nat.min_eq_left (by omega)

theorem applyOp_preserves_inv (l : IndexedLine) (op : BufOp) (h : l.Inv) :
    (applyOp l op).Inv := by
  obtain ⟨h0, h1⟩ := h
  cases op with
  | ins s =>
    simp only [applyOp, IndexedLine.insert, IndexedLine.move_cursor_forward,
      IndexedLine.Inv, pyTake, pyDrop]
    rw [sliceIdx_of_inRange _ _ h0 h1]
    simp only [List.length_append, List.length_take, List.length_drop]
    constructor <;> omega
  | delBack =>
    simp only [applyOp, IndexedLine.delete_backward]
    by_cases hpos : l.idx > 0
    · simp only [if_pos hpos, IndexedLine.move_cursor_backward, IndexedLine.Inv,
        pyTake, pyDrop]
      rw [sliceIdx_of_inRange _ _ (by omega) (by omega),
        sliceIdx_of_inRange _ _ h0 h1]
      simp only [List.length_append, List.length_take, List.length_drop]
      constructor <;> omega
    · simp only [if_neg hpos]
      exact ⟨h0, h1⟩
  | delFwd =>
    simp only [applyOp, IndexedLine.delete_forward]
    by_cases hlt : l.idx < (l.text.length : Int)
    · simp only [if_pos hlt, IndexedLine.Inv, pyTake, pyDrop]
      rw [sliceIdx_of_inRange _ _ h0 h1,
        sliceIdx_of_inRange _ _ (by omega) (by omega)]
      simp only [List.length_append, List.length_take, List.length_drop]
      constructor <;> omega
    · simp only [if_neg hlt]
      exact ⟨h0, h1⟩
  | moveBack n =>
    simp only [applyOp, IndexedLine.move_cursor_backward, IndexedLine.Inv]
    constructor <;> omega
  | moveFwd n =>
    simp only [applyOp, IndexedLine.move_cursor_forward, IndexedLine.Inv]
    constructor <;> omega
  | moveHome =>
    simp only [applyOp, IndexedLine.move_cursor_home, IndexedLine.Inv]
    constructor <;> omega
  | moveEnd =>
    simp only [applyOp, IndexedLine.move_cursor_end, IndexedLine.Inv]
    constructor <;> omega

theorem applyOps_preserves_inv (l : IndexedLine) (ops : List BufOp)
    (h : l.Inv) : (applyOps l ops).Inv := by
  induction ops generalizing l with
  | nil => exact h
  | cons op rest ih =>
    simpa [applyOps, List.foldl_cons] using
      ih (applyOp l op) (applyOp_preserves_inv l op h)

/-- C1: every single buffer operation among insert, delete_backward,
delete_forward, move_cursor_backward(n), move_cursor_forward(n),
move_cursor_home, move_cursor_end preserves the invariant
0 ≤ idx ≤ length(text), and hence the invariant holds after any sequence of
buffer operations starting from the empty buffer. -/
theorem C1_buffer_invariant :
    (∀ (l : IndexedLine) (op : BufOp), l.Inv → (applyOp l op).Inv) ∧
    (∀ ops : List BufOp, (applyOps emptyLine ops).Inv) := by
  refine ⟨applyOp_preserves_inv, fun ops => ?_⟩
  exact applyOps_preserves_inv emptyLine ops (by simp [emptyLine, IndexedLine.Inv])

/-- Witness for C1 at a concrete buffer and operation. -/
theorem C1_buffer_invariant_witness :
    (IndexedLine.mk ('a' :: 'b' :: []) 1).Inv ∧
    (applyOp (IndexedLine.mk ('a' :: 'b' :: []) 1) (BufOp.ins ('x' :: []))).Inv :=
  ⟨by decide, C1_buffer_invariant.1 _ (BufOp.ins ('x' :: [])) (by decide)⟩

/-- Predicate from the claim: move_cursor_forward(k) clamps when
idx + k exceeds length(text). -/
def forwardClamps (l : IndexedLine) (k : Nat) : Prop :=
  (l.text.length : Int) < l.idx + (k : Int)

/-- Predicate from the claim: move_cursor_backward(k) clamps when the
intermediate index minus k is below 0. -/
def backwardClamps (l : IndexedLine) (k : Nat) : Prop :=
  (l.move_cursor_forward (k : Int)).1.idx - (k : Int) < 0

/-- Forward move by k followed by backward move by k. -/
def roundTrip (l : IndexedLine) (k : Nat) : IndexedLine :=
  ((l.move_cursor_forward (k : Int)).1.move_cursor_backward (k : Int)).1

instance (l : IndexedLine) (k : Nat) : Decidable (forwardClamps l k) := by
  unfold forwardClamps; exact inferInstance

instance (l : IndexedLine) (k : Nat) : Decidable (backwardClamps l k) := by
  unfold backwardClamps; exact inferInstance

/-- C6 counterexample: on the empty buffer with k = 1 both moves clamp, yet
the round trip restores the index, so restoration is not equivalent to the
absence of clamping. -/
theorem C6_counterexample_both_clamp_yet_restored :
    ¬ ((roundTrip emptyLine 1).idx = emptyLine.idx ↔
        ¬ forwardClamps emptyLine 1 ∧ ¬ backwardClamps emptyLine 1) := by
  decide

/-- C6 amended: for an in-range buffer, move_cursor_forward(k) followed by
move_cursor_backward(k) restores the index if and only if neither move
clamped or the original index was 0 (in the latter case both moves may clamp
and the index still returns to 0). -/
theorem C6_round_trip_restores_iff (l : IndexedLine) (k : Nat) (h : l.Inv) :
    (roundTrip l k).idx = l.idx ↔
      (¬ forwardClamps l k ∧ ¬ backwardClamps l k) ∨ l.idx = 0 := by
  obtain ⟨h0, h1⟩ := h
  simp only [roundTrip, forwardClamps, backwardClamps,
    IndexedLine.move_cursor_forward, IndexedLine.move_cursor_backward]
  constructor
  · intro hres
    omega
  · intro hside
    omega

/-- Witness for C6 on the buffer "ab" with index 1 and k = 1, where neither
move clamps. -/
theorem C6_round_trip_witness :
    (roundTrip ⟨'a' :: 'b' :: [], 1⟩ 1).idx = (1 : Int) ↔
      (¬ forwardClamps ⟨'a' :: 'b' :: [], 1⟩ 1 ∧
        ¬ backwardClamps ⟨'a' :: 'b' :: [], 1⟩ 1) ∨ (1 : Int) = 0 :=
  C6_round_trip_restores_iff ⟨'a' :: 'b' :: [], 1⟩ 1 (by decide)

/-- C9: the IndexedLine constructor stores text and index unchanged, with no
validation or clamping; an out-of-range index yields a buffer violating the
invariant, and insert and delete_backward then operate on that index (with
Python slice clamping and negative-index semantics) instead of failing. -/
theorem C9_constructor_no_validation :
    (∀ (t : List Char) (i : Int),
      (IndexedLine.mk t i).text = t ∧ (IndexedLine.mk t i).idx = i) ∧
    ¬ (IndexedLine.mk ('a' :: 'b' :: []) 5).Inv ∧
    ¬ (IndexedLine.mk ('a' :: 'b' :: []) (-1)).Inv ∧
    (IndexedLine.mk ('a' :: 'b' :: []) 5).insert ('x' :: []) =
      ⟨'a' :: 'b' :: 'x' :: [], 3⟩ ∧
    (IndexedLine.mk ('a' :: 'b' :: []) 5).delete_backward =
      ⟨'a' :: 'b' :: [], 4⟩ ∧
    (IndexedLine.mk ('a' :: 'b' :: []) (-1)).insert ('x' :: []) =
      ⟨'a' :: 'x' :: 'b' :: [], 0⟩ ∧
    (IndexedLine.mk ('a' :: 'b' :: []) (-1)).delete_backward =
      ⟨'a' :: 'b' :: [], -1⟩ :=
  ⟨fun t i => ⟨rfl, rfl⟩, by decide⟩

/-- Key events produced by get_rich_char: a printable character, a control
key, or an escape sequence bound to a capability (identified by its capname)
whose value is the normalized escape string. -/
inductive KeyEvent where
  | printable (c : Char)
  | control (c : Char)
  | escape (capname : String) (v : List Char)
deriving Repr, DecidableEq

/-- Value attribute of an event: the character for Key objects, the
capability value for EscapeSequence objects. -/
def KeyEvent.value : KeyEvent → List Char
  | .printable c => c :: []
  | .control c => c :: []
  | .escape _ v => v

/-- Source is_char_backspace applied to an event value: membership of the
value in the pair of the BACKSPACE and DELETE characters. -/
def is_char_backspace (v : List Char) : Bool :=
  v == Char.ofNat 8 :: [] || v == Char.ofNat 127 :: []

/-- Source is_char_interrupt applied to an event value: equality with the
EOT character 0x04. -/
def is_char_interrupt (v : List Char) : Bool :=
  v == Char.ofNat 4 :: []

/-- Source is_capability_delete: the event is an EscapeSequence whose
capability has capname kdch1. -/
def is_capability_delete : KeyEvent → Bool
  | .escape cap _ => cap == "kdch1"
  | _ => false

/-- Boolean test that s starts with p. -/
def listStartsWith : List Char → List Char → Bool
  | _, [] => true
  | [], _ :: _ => false
  | a :: t, b :: s => a == b && listStartsWith t s

/-- Python substring containment: s occurs contiguously in t. -/
def occursIn (s : List Char) : List Char → Bool
  | [] => s.isEmpty
  | c :: t => listStartsWith (c :: t) s || occursIn s t

/-- One pass of the event loop body of RichLine.__iter__ (richinput.py
lines 388-396): the if/elif chain applies the buffer edit for the event;
the EOT branch raises StopIteration, modelled as none. -/
def iterStep (l : IndexedLine) (e : KeyEvent) : Option IndexedLine :=
  match e with
  | .printable c => some (l.insert (c :: []))
  | _ =>
    if is_char_backspace e.value then some l.delete_backward
    else if is_capability_delete e then some l.delete_forward
    else if is_char_interrupt e.value then none
    else some l

/-- RichLine.read (richinput.py lines 366-371) over a stream of decoded
events: each event is applied to the buffer, then the terminator test
`el.value in eot` runs on the yielded tuple and breaks the loop; when the
event generator stops (EOT), read returns the current buffer text. -/
def readEvents (l : IndexedLine) (eot : List Char) : List KeyEvent → List Char
  | [] => l.text
  | e :: rest =>
    match iterStep l e with
    | none => l.text
    | some l2 =>
      if occursIn e.value eot then l2.text
      else readEvents l2 eot rest

/-- C3: an EOT control key terminates the read immediately and the buffer
text accumulated so far is returned, whatever events would have followed;
in particular reading the events for the bytes a, b, c, 0x04 returns abc. -/
theorem C3_eot_aborts_read :
    (∀ (l : IndexedLine) (eot : List Char) (rest : List KeyEvent),
      readEvents l eot (KeyEvent.control (Char.ofNat 4) :: rest) = l.text) ∧
    readEvents emptyLine ('\n' :: [])
      (KeyEvent.printable 'a' :: KeyEvent.printable 'b' :: KeyEvent.printable 'c'
        :: KeyEvent.control (Char.ofNat 4) :: []) = 'a' :: 'b' :: 'c' :: [] :=
  ⟨fun _ _ _ => rfl, by decide⟩

/-- C10: the terminator test runs only after the event was applied to the
buffer, so a printable terminator is first inserted at the insertion point
and is included in the returned text (and the insertion really contains it),
whereas the default control terminator is never inserted and the returned
text excludes it; concretely, with terminators q the events a, b, q yield
the text abq. -/
theorem C10_terminator_applied_before_test :
    (∀ (l : IndexedLine) (c : Char) (eot : List Char) (rest : List KeyEvent),
      occursIn (KeyEvent.printable c).value eot = true →
      readEvents l eot (KeyEvent.printable c :: rest) =
        (l.insert (c :: [])).text ∧ c ∈ (l.insert (c :: [])).text) ∧
    (∀ (l : IndexedLine) (rest : List KeyEvent),
      readEvents l ('\n' :: []) (KeyEvent.control '\n' :: rest) = l.text) ∧
    readEvents emptyLine ('q' :: [])
      (KeyEvent.printable 'a' :: KeyEvent.printable 'b' ::
        KeyEvent.printable 'q' :: []) = 'a' :: 'b' :: 'q' :: [] := by
  refine ⟨fun l c eot rest h => ⟨?_, ?_⟩, fun l rest => rfl, by decide⟩
  · simp only [readEvents, iterStep, h, if_pos]
  · simp [IndexedLine.insert, IndexedLine.move_cursor_forward]

/-- Witness for C10 with terminators q and the single event q. -/
theorem C10_terminator_witness :
    readEvents emptyLine ('q' :: []) (KeyEvent.printable 'q' :: []) =
      (emptyLine.insert ('q' :: [])).text ∧
      'q' ∈ (emptyLine.insert ('q' :: [])).text :=
  C10_terminator_applied_before_test.1 emptyLine 'q' ('q' :: []) [] (by decide)

/-- Effect of update_vterm (richinput.py lines 405-444) on the indexed line:
when the text changed nothing moves, otherwise an EscapeSequence bound to
kcub1 / kcuf1 / khome / kend applies the corresponding buffer move.  The
vterm and stdout effects are irrelevant to the insertion index and are not
modelled. -/
def update_vterm_iline (e : KeyEvent) (previous current : List Char)
    (l : IndexedLine) : IndexedLine :=
  if previous ≠ current then l
  else
    match e with
    | .escape cap _ =>
      if cap == "kcub1" then (l.move_cursor_backward 1).1
      else if cap == "kcuf1" then (l.move_cursor_forward 1).1
      else if cap == "khome" then l.move_cursor_home.1
      else if cap == "kend" then l.move_cursor_end.1
      else l
    | _ => l

/-- Tuple yielded by RichLine.__iter__ for one event (richinput.py line 398),
restricted to its text and index components: (prev_text, curr_text,
prev_idx, curr_idx), where curr_text and curr_idx are read from the buffer
right after the loop body ran and before the callback chain. -/
def iterYield (l : IndexedLine) (e : KeyEvent) :
    Option (List Char × List Char × Int × Int) :=
  (iterStep l e).map (fun l2 => (l.text, l2.text, l.idx, l2.idx))

/-- Buffer state after the callback chain for one event: the loop body
applies the edit, then update_vterm (reached through the callback, which
receives its curr_idx argument before update_vterm runs) applies any
cursor-motion move. -/
def afterRedraw (l : IndexedLine) (e : KeyEvent) : Option IndexedLine :=
  (iterStep l e).map (fun l2 => update_vterm_iline e l.text l2.text l2)

/-- Escape value of the left-arrow key as sent by common terminals. -/
def escLeftValue : List Char := Char.ofNat 27 :: '[' :: 'D' :: []

/-- C5 counterexample: on the buffer ab with index 2, a kcub1 event yields
curr_idx 2, but the index after update_vterm runs is 1, so the curr_idx
yielded (and passed to the callback) is not the post-move index. -/
theorem C5_counterexample_yield_premove :
    (iterYield ⟨'a' :: 'b' :: [], 2⟩ (KeyEvent.escape "kcub1" escLeftValue)).map
        (fun y => y.2.2.2) = some 2 ∧
    (afterRedraw ⟨'a' :: 'b' :: [], 2⟩
        (KeyEvent.escape "kcub1" escLeftValue)).map IndexedLine.idx = some 1 ∧
    ((2 : Int) = 1 → False) := by
  refine ⟨by decide, by decide, by omega⟩

/-- The buffer move that update_vterm performs for a cursor-motion
capability. -/
def motionMove (cap : String) (l : IndexedLine) : IndexedLine :=
  if cap == "kcub1" then (l.move_cursor_backward 1).1
  else if cap == "kcuf1" then (l.move_cursor_forward 1).1
  else if cap == "khome" then l.move_cursor_home.1
  else if cap == "kend" then l.move_cursor_end.1
  else l

/-- C5 amended: for an EscapeSequence bound to a cursor-motion capability
(whose value is neither the backspace pair nor EOT, as holds for every real
escape value, which starts with ESC), the event loop leaves the buffer
unchanged and yields curr_idx equal to the pre-move index, and the move is
applied only by update_vterm, after the yield and after the callback
arguments were computed. -/
theorem update_vterm_iline_unchanged_text (e : KeyEvent) (cur : List Char)
    (l : IndexedLine) :
    update_vterm_iline e cur cur l =
      (match e with
       | .escape cap _ => motionMove cap l
       | _ => l) := by
  unfold update_vterm_iline motionMove
  rw [if_neg (fun h => h rfl)]

theorem C5_motion_applied_in_update_vterm (l : IndexedLine) (cap : String)
    (v : List Char)
    (hcap : cap = "kcub1" ∨ cap = "kcuf1" ∨ cap = "khome" ∨ cap = "kend")
    (hbs : is_char_backspace v = false) (hint : is_char_interrupt v = false) :
    iterYield l (KeyEvent.escape cap v) = some (l.text, l.text, l.idx, l.idx) ∧
    afterRedraw l (KeyEvent.escape cap v) = some (motionMove cap l) := by
  have hdel : is_capability_delete (KeyEvent.escape cap v) = false := by
    rcases hcap with h | h | h | h <;> subst h <;> rfl
  have hstep : iterStep l (KeyEvent.escape cap v) = some l := by
    simp [iterStep, KeyEvent.value, hbs, hdel, hint]
  constructor
  · simp [iterYield, hstep]
  · simp [afterRedraw, hstep, update_vterm_iline_unchanged_text]

/-- Witness for C5 with khome on the buffer a with index 1. -/
theorem C5_motion_witness :
    iterYield ⟨'a' :: [], 1⟩
        (KeyEvent.escape "khome" (Char.ofNat 27 :: '[' :: 'H' :: [])) =
      some ('a' :: [], 'a' :: [], 1, 1) ∧
    afterRedraw ⟨'a' :: [], 1⟩
        (KeyEvent.escape "khome" (Char.ofNat 27 :: '[' :: 'H' :: [])) =
      some (motionMove "khome" ⟨'a' :: [], 1⟩) :=
  C5_motion_applied_in_update_vterm ⟨'a' :: [], 1⟩ "khome"
    (Char.ofNat 27 :: '[' :: 'H' :: [])
    (Or.inr (Or.inr (Or.inl rfl))) (by decide) (by decide)

/-- Source is_char_esc: the character is ESC (0x1B). -/
def is_char_esc (c : Char) : Bool := c == Char.ofNat 27

/-- Source is_char_single_character_csi: the character is the single
character CSI (0x9B). -/
def is_char_single_character_csi (c : Char) : Bool := c == Char.ofNat 155

/-- Source raise_if_start_escape_sequence: the character is ESC or the
single character CSI. -/
def startsEscapeSequence (c : Char) : Bool :=
  is_char_single_character_csi c || is_char_esc c

/-- Python equality between a one-character string and an integer, as
written on richinput.py line 189 (`seq[-1] == 36`): in Python a str value
never compares equal to an int, so the comparison is always false. -/
def pyStrEqInt (_c : Char) (_n : Nat) : Bool := false

/-- Exit condition of the CSI collection loop (richinput.py line 189):
64 <= ord(seq[-1]) <= 126 or seq[-1] == 36, where the second disjunct is
the always-false str-to-int comparison. -/
def csiLoopStops (c : Char) : Bool :=
  (64 ≤ c.toNat && c.toNat ≤ 126) || pyStrEqInt c 36

/-- Result of consume_escape_sequence: the consumed sequence plus remaining
input, a restart on a nested escape introducer
(StartEscapeSequenceException), or exhaustion of the input iterator. -/
inductive ConsumeResult where
  | ok (seq : List Char) (rest : List Char)
  | restart (c : Char) (rest : List Char)
  | noInput
deriving Repr, DecidableEq

/-- CSI collection loop of consume_escape_sequence: while the last collected
byte is not a stopping byte, append the next input byte (restarting if it
introduces a new escape sequence). -/
def csiLoop (seq : List Char) (last : Char) : List Char → ConsumeResult
  | [] => if csiLoopStops last then .ok seq [] else .noInput
  | c :: rest =>
    if csiLoopStops last then .ok seq (c :: rest)
    else if startsEscapeSequence c then .restart c rest
    else csiLoop (seq ++ c :: []) c rest

/-- consume_escape_sequence (richinput.py lines 173-198) over an explicit
input list: returns the whole escape sequence normalized to the extended
ESC [ format. -/
def consume_escape_sequence (starter : Char) (input : List Char) :
    ConsumeResult :=
  let firstStep : Option (Char × List Char) :=
    if is_char_single_character_csi starter then some ('[', input)
    else
      match input with
      | [] => none
      | c :: rest => some (c, rest)
  match firstStep with
  | none => .noInput
  | some (c0, rest0) =>
    if startsEscapeSequence c0 then .restart c0 rest0
    else if c0 = '[' then
      match rest0 with
      | [] => .noInput
      | c1 :: r1 =>
        if startsEscapeSequence c1 then .restart c1 r1
        else csiLoop (Char.ofNat 27 :: '[' :: c1 :: []) c1 r1
    else if c0 = 'O' then
      match rest0 with
      | [] => .noInput
      | c1 :: r1 =>
        if startsEscapeSequence c1 then .restart c1 r1
        else .ok (Char.ofNat 27 :: 'O' :: c1 :: []) r1
    else .ok (Char.ofNat 27 :: c0 :: []) rest0

/-- C4: the dollar byte 0x24 never stops the CSI collection loop (the source
compares the one-character string seq[-1] with the integer 36, which is
always false in Python), so for the input ESC [ $ A the consumer reads past
the dollar and terminates only at A, instead of ending at the dollar as the
claim states. -/
theorem C4_dollar_is_not_a_final_byte :
    csiLoopStops '$' = false ∧
    Char.toNat '$' = 36 ∧
    consume_escape_sequence (Char.ofNat 27) ('[' :: '$' :: 'A' :: []) =
      ConsumeResult.ok (Char.ofNat 27 :: '[' :: '$' :: 'A' :: []) [] ∧
    consume_escape_sequence (Char.ofNat 27) ('[' :: '$' :: 'A' :: []) ≠
      ConsumeResult.ok (Char.ofNat 27 :: '[' :: '$' :: []) ('A' :: []) := by
  decide

/-- Failure modes of the terminfo loader that surface as TerminfoError. -/
inductive TerminfoFailure where
  | unset
  | notFound (name : String)
  | badMagic
deriving Repr, DecidableEq

/-- Python truthiness of an optional string: None and the empty string are
falsy. -/
def pyFalsyOptStr : Option String → Bool
  | none => true
  | some s => s == ""

/-- Name-resolution step of load_terminfo (terminfo.py lines 116-127).  The
first statement of the body, `terminal_name = os.getenv TERM` (line 122),
rebinds the terminal_name parameter before it is ever read, so the resolved
name depends only on the TERM environment variable and the fallback. -/
def resolve_terminal_name (_terminal_name_arg : Option String)
    (fallback : String) (envTERM : Option String) :
    Except TerminfoFailure String :=
  let terminal_name := envTERM
  if pyFalsyOptStr terminal_name then
    if fallback == "" then .error .unset
    else .ok fallback
  else .ok (terminal_name.getD "")

/-- C2: the explicit terminal_name argument of load_terminfo is never used:
the resolved name is the same whatever argument is passed, and with TERM set
to vt220 an explicit request for xterm still resolves vt220, contradicting
the claim that an explicit name is the one used. -/
theorem C2_explicit_name_ignored :
    (∀ (a b : Option String) (fb : String) (env : Option String),
      resolve_terminal_name a fb env = resolve_terminal_name b fb env) ∧
    resolve_terminal_name (some "xterm") "vt100" (some "vt220") =
      Except.ok "vt220" ∧
    resolve_terminal_name (some "xterm") "vt100" (some "vt220") ≠
      Except.ok "xterm" :=
  ⟨fun _ _ _ _ => rfl, rfl,
    fun h => absurd (Except.ok.inj h) (by decide)⟩

/-- Subpath probed inside each terminfo directory (terminfo.py line 156):
dirpath joined with the first character of the name and the name itself.
Paths are modelled as lists of characters. -/
def probePath (dirpath name : List Char) : List Char :=
  dirpath ++ '/' :: name.take 1 ++ '/' :: name

/-- One iteration of the search loop of load_terminfo (terminfo.py lines
154-159) acting on the pair of the Python variables terminfo_path (set on
the first hit, after which the loop breaks) and path (the most recently
probed path, never reset). -/
def searchStep (pathExists : List Char → Bool) (name : List Char)
    (st : Option (List Char) × Option (List Char)) (dirpath : List Char) :
    Option (List Char) × Option (List Char) :=
  match st.1 with
  | some _ => st
  | none =>
    let p := probePath dirpath name
    (if pathExists p then some p else none, some p)

/-- Search loop of load_terminfo over the whole directory list. -/
def findTerminfoPath (pathExists : List Char → Bool)
    (locations : List (List Char)) (name : List Char) :
    Option (List Char) × Option (List Char) :=
  locations.foldl (searchStep pathExists name) (none, none)

/-- Outcome of load_terminfo between the directory search and the header
parse (terminfo.py lines 154-166). -/
inductive LoadStep where
  | raisedNotFound (name : List Char)
  | opened (path : List Char)
  | openedNone
  | nameErrorPathUnbound
deriving Repr, DecidableEq

/-- File-resolution step of load_terminfo: after the search loop the source
tests `if not path` - the loop variable holding the last probed path - not
terminfo_path, then calls open(terminfo_path).  When the name was found
nowhere, path is a nonempty pathname, the test is false, and open receives
None (openedNone), which in Python raises TypeError, not TerminfoError;
when the location list is empty, path was never bound and Python raises
NameError. -/
def load_terminfo_resolve (pathExists : List Char → Bool)
    (locations : List (List Char)) (name : List Char) : LoadStep :=
  match findTerminfoPath pathExists locations name with
  | (_, none) => .nameErrorPathUnbound
  | (tpath, some path) =>
    if path.isEmpty then .raisedNotFound name
    else
      match tpath with
      | some t => .opened t
      | none => .openedNone

/-- Default search directories of load_terminfo (terminfo.py lines 143-149)
when TERMINFO and TERMINFO_DIRS are unset. -/
def default_terminfo_locations : List (List Char) :=
  ("~/.terminfo".toList) :: ("/etc/terminfo".toList) ::
    ("/usr/local/ncurses/share/terminfo".toList) :: ("/lib/terminfo".toList) ::
    ("/usr/share/terminfo".toList) :: []

theorem foldl_searchStep_snd (pathExists : List Char → Bool)
    (name : List Char) (locations : List (List Char)) :
    ∀ st0 : Option (List Char) × Option (List Char),
      (locations.foldl (searchStep pathExists name) st0).2 = st0.2 ∨
      ∃ d, (locations.foldl (searchStep pathExists name) st0).2 =
        some (probePath d name) := by
  induction locations with
  | nil => exact fun st0 => Or.inl rfl
  | cons d rest ih =>
    intro st0
    rcases st0 with ⟨fst, snd⟩
    cases fst with
    | some p =>
      have hstep : searchStep pathExists name (some p, snd) d = (some p, snd) :=
        rfl
      rw [List.foldl_cons, hstep]
      exact ih (some p, snd)
    | none =>
      have hstep : searchStep pathExists name (none, snd) d =
          (if pathExists (probePath d name) then some (probePath d name)
            else none, some (probePath d name)) := rfl
      rw [List.foldl_cons, hstep]
      rcases ih (if pathExists (probePath d name) then some (probePath d name)
          else none, some (probePath d name)) with h | ⟨d2, h⟩
      · exact Or.inr ⟨d, by rw [h]⟩
      · exact Or.inr ⟨d2, h⟩

theorem probePath_not_empty (dirpath name : List Char) :
    (probePath dirpath name).isEmpty = false := by
  cases dirpath <;> simp [probePath]

/-- C8: when no searched directory contains the terminfo file, load_terminfo
does not raise the NotFound TerminfoError: with the default directories it
reaches open with terminfo_path still None (a TypeError), and in general the
NotFound branch is unreachable because the guard tests the last probed path,
which is never an empty string. -/
theorem C8_notfound_unreachable :
    load_terminfo_resolve (fun _ => false) default_terminfo_locations
      ("xterm".toList) = LoadStep.openedNone ∧
    (∀ (pathExists : List Char → Bool) (locations : List (List Char))
      (name m : List Char),
      load_terminfo_resolve pathExists locations name ≠
        LoadStep.raisedNotFound m) := by
  constructor
  · decide
  · intro pathExists locations name m
    have hshape := foldl_searchStep_snd pathExists name locations (none, none)
    unfold load_terminfo_resolve
    rcases hfp : findTerminfoPath pathExists locations name with ⟨tpath, spath⟩
    rw [show locations.foldl (searchStep pathExists name) (none, none) =
        (tpath, spath) from hfp] at hshape
    cases spath with
    | none => intro hcon; cases hcon
    | some path =>
      have hpe : path.isEmpty = false := by
        rcases hshape with h | ⟨d, h⟩
        · cases h
        · rw [Option.some_inj.mp h]
          exact probePath_not_empty d name
      simp only [hpe, Bool.false_eq_true, if_false]
      cases tpath with
      | some t => intro hcon; cases hcon
      | none => intro hcon; cases hcon

/-- Boolean-section parse of load_terminfo (terminfo.py lines 199-201): the
loop enumerates i over the booleans range but computes each capability value
as data[i] == NUL, indexing the whole file at offset i (which lies inside
the 12-byte header for small i) instead of the section index idx it just
computed.  The byte-string comparison with NUL follows the Python 2 reading
of the source, where data[i] is a one-byte string. -/
def load_terminfo_booleans (data : List Nat) (size_booleans : Nat) :
    List Bool :=
  (List.range size_booleans).map (fun i => data.getD i 0 == 0)

/-- Modelled from the spec: the booleans section of a compiled terminfo file
starts at byte offset 12 + names-size, and the claim pairs its i-th byte
with the i-th canonical boolean capability. -/
def spec_booleans_section (data : List Nat) (size_names size_booleans : Nat) :
    List Nat :=
  (List.range size_booleans).map (fun i => data.getD (12 + size_names + i) 0)

/-- Compiled terminfo blob with names-size 2 and booleans-size 2: header,
names section x NUL, booleans section bytes 1 0. -/
def tiData1 : List Nat :=
  26 :: 1 :: 2 :: 0 :: 2 :: 0 :: 0 :: 0 :: 0 :: 0 :: 0 :: 0 ::
    120 :: 0 :: 1 :: 0 :: []

/-- Same blob as tiData1 except for the booleans section, whose bytes are
0 1. -/
def tiData2 : List Nat :=
  26 :: 1 :: 2 :: 0 :: 2 :: 0 :: 0 :: 0 :: 0 :: 0 :: 0 :: 0 ::
    120 :: 0 :: 0 :: 1 :: []

/-- Same blob as tiData1 except for its second header byte. -/
def tiData3 : List Nat :=
  26 :: 0 :: 2 :: 0 :: 2 :: 0 :: 0 :: 0 :: 0 :: 0 :: 0 :: 0 ::
    120 :: 0 :: 1 :: 0 :: []

/-- C7: the boolean capability values produced by load_terminfo are not
derived from the booleans section: two files that differ only inside that
section yield identical values, while two files that agree on every byte
from the names section onward but differ in one header byte yield different
values, because the code reads data[i] instead of the section byte at
12 + names-size + i. -/
theorem C7_booleans_read_from_wrong_offset :
    spec_booleans_section tiData1 2 2 ≠ spec_booleans_section tiData2 2 2 ∧
    load_terminfo_booleans tiData1 2 = load_terminfo_booleans tiData2 2 ∧
    tiData1.drop 12 = tiData3.drop 12 ∧
    spec_booleans_section tiData1 2 2 = spec_booleans_section tiData3 2 2 ∧
    load_terminfo_booleans tiData1 2 ≠ load_terminfo_booleans tiData3 2 := by
  decide
